import Mathlib

/-!
Verification of the sensor calibration tool (src/main.cpp).

The program fits a linear model `real = slope * raw + offset` by least-squares
regression, keeps one process-wide calibration record, saves/loads the two
coefficients to a two-token text file, and converts raw readings interactively.

Numeric values (`double` in the source) are embedded as exact rationals `ℚ`;
the division-by-zero guard `1e-10` becomes the exact rational `1 / 10 ^ 10`.
Interactive input is embedded as explicit arguments: the list of data points a
user would type, the token stream a file would provide, the readings and
continuation answers of a conversion session, and the menu choices of a whole
session.
-/

namespace SensorCal

/-- The calibration record (`struct Calibration`, src/main.cpp lines 23-29):
slope, offset and a flag tracking whether a calibration has been set. -/
structure Calibration where
  slope : ℚ
  offset : ℚ
  is_valid : Bool
deriving DecidableEq, Repr

/-- The default constructor `Calibration()`: slope 0, offset 0, not valid
(src/main.cpp line 28).  This is the state at process start. -/
def init_calibration : Calibration := ⟨0, 0, false⟩

/-- The fixed absolute epsilon `1e-10` used on the regression denominator
(src/main.cpp line 191). -/
def epsDenom : ℚ := 1 / 10 ^ 10

/-- Outcome of the regression engine. -/
inductive RegResult where
  | degenerate : RegResult
  | ok (slope offset : ℚ) : RegResult
deriving DecidableEq, Repr

/-- The single-pass accumulation loop of `enter_calibration_data`
(src/main.cpp lines 169-182): starting from `(0,0,0,0)` it accumulates
`(sum_x, sum_y, sum_xy, sum_x2)` over the data points, where each point is a
pair `(x, y)` = (raw reading, reference value). -/
def regressionSums (points : List (ℚ × ℚ)) : ℚ × ℚ × ℚ × ℚ :=
  points.foldl
    (fun s p => (s.1 + p.1, s.2.1 + p.2, s.2.2.1 + p.1 * p.2, s.2.2.2 + p.1 * p.1))
    (0, 0, 0, 0)

/-- The least-squares computation of `enter_calibration_data`
(src/main.cpp lines 169-198): accumulate the four sums, take
`n = static_cast<double>(num_points)`, form
`numerator = n*sum_xy - sum_x*sum_y` and `denominator = n*sum_x2 - sum_x*sum_x`;
if `|denominator| < 1e-10` the input is degenerate, otherwise
`slope = numerator / denominator` and `offset = (sum_y - slope*sum_x) / n`. -/
def linear_regression (raw reference : List ℚ) : RegResult :=
  let s := regressionSums (raw.zip reference)
  let n : ℚ := (raw.length : ℚ)
  let numerator := n * s.2.2.1 - s.1 * s.2.1
  let denominator := n * s.2.2.2 - s.1 * s.1
  if |denominator| < epsDenom then .degenerate
  else
    let slope := numerator / denominator
    let offset := (s.2.1 - slope * s.1) / n
    .ok slope offset

/-- `enter_calibration_data` (src/main.cpp lines 105-214) acting on the
calibration store: on a degenerate denominator it reports the error and leaves
the store untouched (lines 191-195); otherwise it overwrites slope, offset and
the validity flag together (lines 200-203). -/
def enter_calibration_data (raw reference : List ℚ) (cal : Calibration) :
    RegResult × Calibration :=
  match linear_regression raw reference with
  | .degenerate => (.degenerate, cal)
  | .ok s o => (.ok s o, ⟨s, o, true⟩)

/-- A file's token stream: `none` for a token `operator>>` fails to parse as a
float, `some q` for one parsing to the value `q`. -/
abbrev FileTokens := List (Option ℚ)

/-- One formatted extraction `file >> x` on the token stream: fails at end of
stream or on an unparseable token, otherwise yields the value and the rest. -/
def readToken : FileTokens → Option (ℚ × FileTokens)
  | [] => none
  | none :: _ => none
  | some q :: rest => some (q, rest)

/-- Outcome of `load_calibration_from_file`. -/
inductive LoadResult where
  | fileOpenError : LoadResult
  | parseErrorSlope : LoadResult
  | parseErrorOffset : LoadResult
  | ok : LoadResult
deriving DecidableEq, Repr

/-- `load_calibration_from_file` (src/main.cpp lines 220-268): the argument is
`none` when the file cannot be opened (line 229), otherwise its token stream.
It reads the slope token (line 239), then the offset token (line 247), failing
with the corresponding error and leaving the store untouched; on success it
overwrites slope, offset and validity together (lines 257-259).  Tokens after
the second are never read. -/
def load_calibration_from_file (file : Option FileTokens) (cal : Calibration) :
    LoadResult × Calibration :=
  match file with
  | none => (.fileOpenError, cal)
  | some tokens =>
    match readToken tokens with
    | none => (.parseErrorSlope, cal)
    | some (slope, rest) =>
      match readToken rest with
      | none => (.parseErrorOffset, cal)
      | some (offset, _) => (.ok, ⟨slope, offset, true⟩)

/-- The body of the conversion do-while loop (src/main.cpp lines 291-319):
each iteration consumes one raw reading and one continuation answer, reports
`(raw, slope*raw + offset)`, and continues only on answer 'y' or 'Y'. -/
def convert_loop (cal : Calibration) : List (ℚ × Char) → List (ℚ × ℚ)
  | [] => []
  | (r, c) :: rest =>
    (r, cal.slope * r + cal.offset) ::
      (if c = 'y' ∨ c = 'Y' then convert_loop cal rest else [])

/-- `convert_raw_reading` (src/main.cpp lines 274-320): with no valid
calibration it reports the error and returns (lines 278-283); otherwise it runs
the conversion loop.  The result pairs the reported conversions (`none` when
not calibrated) with the calibration store after the call. -/
def convert_raw_reading (cal : Calibration) (inputs : List (ℚ × Char)) :
    Option (List (ℚ × ℚ)) × Calibration :=
  if cal.is_valid = false then (none, cal)
  else (some (convert_loop cal inputs), cal)

/-- Rendering a value with `fixed << setprecision(10)` (src/main.cpp line 350):
the written text denotes the nearest multiple of `10⁻¹⁰`. -/
def fix10 (q : ℚ) : ℚ := (round (q * 10 ^ 10) : ℚ) / 10 ^ 10

/-- Outcome of `save_calibration_to_file`. -/
inductive SaveResult where
  | noCalibration : SaveResult
  | fileWriteError : SaveResult
  | saved : SaveResult
deriving DecidableEq, Repr

/-- `save_calibration_to_file` (src/main.cpp lines 326-361): with no valid
calibration it reports the error and returns before touching any file
(lines 330-335); if the file cannot be created it reports the error
(lines 343-347); otherwise it writes slope then offset, each with 10 digits
after the decimal point (lines 350-352).  The result carries the written
file's token stream (`none` when nothing was written) and the store after the
call. -/
def save_calibration_to_file (cal : Calibration) (canOpen : Bool) :
    SaveResult × Option FileTokens × Calibration :=
  if cal.is_valid = false then (.noCalibration, none, cal)
  else if canOpen = false then (.fileWriteError, none, cal)
  else (.saved, some [some (fix10 cal.slope), some (fix10 cal.offset)], cal)

/-- One pass through the menu loop reads either a non-integer (`cin >> choice`
fails, src/main.cpp line 54) or an integer choice. -/
inductive MenuInput where
  | malformed : MenuInput
  | choice (n : ℤ) : MenuInput
deriving DecidableEq, Repr

/-- The interactive input one menu command would go on to consume: the data
points of option 1, the file of option 2, the conversion-session inputs of
option 3, and whether option 4 can create its file. -/
structure Env where
  raw : List ℚ
  reference : List ℚ
  file : Option FileTokens
  readings : List (ℚ × Char)
  saveOk : Bool

/-- One iteration of the `while (true)` menu loop in `main`
(src/main.cpp lines 50-83): malformed input reports an error and continues
(lines 54-59); choices 1-4 dispatch to the four operations; choice 5 returns 0
(lines 76-78); any other integer reports an error and continues (lines 79-81).
The first component is `some code` when the iteration terminates the process. -/
def menu_step (cal : Calibration) (inp : MenuInput) (env : Env) :
    Option ℕ × Calibration :=
  match inp with
  | .malformed => (none, cal)
  | .choice n =>
    if n = 1 then (none, (enter_calibration_data env.raw env.reference cal).2)
    else if n = 2 then (none, (load_calibration_from_file env.file cal).2)
    else if n = 3 then (none, (convert_raw_reading cal env.readings).2)
    else if n = 4 then (none, (save_calibration_to_file cal env.saveOk).2.2)
    else if n = 5 then (some 0, cal)
    else (none, cal)

/-- Running the menu loop on a list of menu inputs, starting from a given
store: processing stops when an iteration terminates the process. -/
def run_session (cal : Calibration) : List (MenuInput × Env) → Calibration
  | [] => cal
  | (inp, env) :: rest =>
    match menu_step cal inp env with
    | (some _, cal₁) => cal₁
    | (none, cal₁) => run_session cal₁ rest

/-- Whether the regression succeeds on the given data. -/
def reg_ok (raw reference : List ℚ) : Bool :=
  match linear_regression raw reference with
  | .ok _ _ => true
  | .degenerate => false

/-- Whether loading from the given file succeeds. -/
def load_ok (file : Option FileTokens) : Bool :=
  match (load_calibration_from_file file init_calibration).1 with
  | .ok => true
  | _ => false

/-- Whether one menu step performs a successful regression (option 1) or a
successful file load (option 2) on its input. -/
def step_sets (inp : MenuInput) (env : Env) : Bool :=
  match inp with
  | .malformed => false
  | .choice n =>
    if n = 1 then reg_ok env.raw env.reference
    else if n = 2 then load_ok env.file
    else false

/-- Whether the menu input is the exit command (choice 5). -/
def isExitStep : MenuInput → Bool
  | .malformed => false
  | .choice n => n == 5

/-- Whether any executed step of the session (those before the first exit
command) performs a successful regression or load. -/
def session_sets : List (MenuInput × Env) → Bool
  | [] => false
  | (inp, env) :: rest =>
    if isExitStep inp then false
    else step_sets inp env || session_sets rest

/-! ### Helper lemmas -/

/-- The single-pass fold computes the four sums, from any accumulator. -/
theorem regressionSums_foldl (pts : List (ℚ × ℚ)) :
    ∀ a : ℚ × ℚ × ℚ × ℚ,
      pts.foldl
        (fun s p => (s.1 + p.1, s.2.1 + p.2, s.2.2.1 + p.1 * p.2, s.2.2.2 + p.1 * p.1)) a
      = (a.1 + (pts.map Prod.fst).sum, a.2.1 + (pts.map Prod.snd).sum,
         a.2.2.1 + (pts.map fun p => p.1 * p.2).sum,
         a.2.2.2 + (pts.map fun p => p.1 * p.1).sum) := by
  induction pts with
  | nil => intro a; simp
  | cons p pts ih =>
    intro a
    rw [List.foldl_cons, ih]
    simp only [List.map_cons, List.sum_cons, Prod.mk.injEq]
    refine ⟨by ring, by ring, by ring, by ring⟩

/-- The accumulation loop of `enter_calibration_data` computes exactly the
sums of the coordinates, of the products and of the squares. -/
theorem regressionSums_spec (pts : List (ℚ × ℚ)) :
    regressionSums pts =
      ((pts.map Prod.fst).sum, (pts.map Prod.snd).sum,
       (pts.map fun p => p.1 * p.2).sum, (pts.map fun p => p.1 * p.1).sum) := by
  rw [regressionSums, regressionSums_foldl]
  simp

/-- On equal-length data the four accumulated sums are the sums over the raw
readings, the reference values, their products, and the squared raw readings. -/
theorem regressionSums_zip (raw reference : List ℚ)
    (hlen : raw.length = reference.length) :
    regressionSums (raw.zip reference) =
      (raw.sum, reference.sum,
       ((raw.zip reference).map fun p => p.1 * p.2).sum,
       (raw.map fun x => x * x).sum) := by
  rw [regressionSums_spec]
  have hfst : (raw.zip reference).map Prod.fst = raw :=
    List.map_fst_zip raw reference (le_of_eq hlen)
  have hsnd : (raw.zip reference).map Prod.snd = reference :=
    List.map_snd_zip raw reference (le_of_eq hlen.symm)
  have hsq : ((raw.zip reference).map fun p => p.1 * p.1)
      = raw.map fun x => x * x := by
    have h1 : ((raw.zip reference).map fun p : ℚ × ℚ => p.1 * p.1)
        = ((raw.zip reference).map Prod.fst).map fun x => x * x := by
      rw [List.map_map]
      rfl
    rw [h1, hfst]
  rw [hfst, hsnd, hsq]

/-- A list all of whose elements equal `c` sums to `length * c`. -/
theorem sum_of_const (l : List ℚ) (c : ℚ) (h : ∀ x ∈ l, x = c) :
    l.sum = (l.length : ℚ) * c := by
  rw [List.sum_eq_card_nsmul l c h, nsmul_eq_mul]

/-- `linear_regression` written out over the sums of the data: guard on the
denominator, then the closed-form slope and offset. -/
theorem linear_regression_sums (raw reference : List ℚ)
    (hlen : raw.length = reference.length) :
    linear_regression raw reference =
      if |(raw.length : ℚ) * (raw.map fun x => x * x).sum - raw.sum * raw.sum|
          < epsDenom then .degenerate
      else
        .ok
          (((raw.length : ℚ) * ((raw.zip reference).map fun p => p.1 * p.2).sum
              - raw.sum * reference.sum)
            / ((raw.length : ℚ) * (raw.map fun x => x * x).sum - raw.sum * raw.sum))
          ((reference.sum
              - (((raw.length : ℚ) * ((raw.zip reference).map fun p => p.1 * p.2).sum
                    - raw.sum * reference.sum)
                  / ((raw.length : ℚ) * (raw.map fun x => x * x).sum
                      - raw.sum * raw.sum))
                * raw.sum)
            / (raw.length : ℚ)) := by
  have h : linear_regression raw reference =
      (if |(raw.length : ℚ) * (regressionSums (raw.zip reference)).2.2.2
            - (regressionSums (raw.zip reference)).1
              * (regressionSums (raw.zip reference)).1| < epsDenom
       then RegResult.degenerate
       else
        .ok
          (((raw.length : ℚ) * (regressionSums (raw.zip reference)).2.2.1
              - (regressionSums (raw.zip reference)).1
                * (regressionSums (raw.zip reference)).2.1)
            / ((raw.length : ℚ) * (regressionSums (raw.zip reference)).2.2.2
                - (regressionSums (raw.zip reference)).1
                  * (regressionSums (raw.zip reference)).1))
          (((regressionSums (raw.zip reference)).2.1
              - (((raw.length : ℚ) * (regressionSums (raw.zip reference)).2.2.1
                    - (regressionSums (raw.zip reference)).1
                      * (regressionSums (raw.zip reference)).2.1)
                  / ((raw.length : ℚ) * (regressionSums (raw.zip reference)).2.2.2
                      - (regressionSums (raw.zip reference)).1
                        * (regressionSums (raw.zip reference)).1))
                * (regressionSums (raw.zip reference)).1)
            / (raw.length : ℚ))) := rfl
  rw [regressionSums_zip raw reference hlen] at h
  simpa using h

/-- When the regression succeeds, `enter_calibration_data` stores the result
wholesale. -/
theorem enter_calibration_data_ok (raw reference : List ℚ) (cal : Calibration)
    (s o : ℚ) (h : linear_regression raw reference = .ok s o) :
    enter_calibration_data raw reference cal = (.ok s o, ⟨s, o, true⟩) := by
  unfold enter_calibration_data
  rw [h]

/-- When the regression is degenerate, `enter_calibration_data` reports the
error and leaves the store untouched. -/
theorem enter_calibration_data_deg (raw reference : List ℚ) (cal : Calibration)
    (h : linear_regression raw reference = .degenerate) :
    enter_calibration_data raw reference cal = (.degenerate, cal) := by
  unfold enter_calibration_data
  rw [h]

/-! ### Claims -/

/-- C1: for `n ≥ 2` equal-length data lists whose denominator
`denom = n*sum_x2 - sum_x²` satisfies `|denom| ≥ 1e-10`, the regression of
`enter_calibration_data` computes `slope = (n*sum_xy - sum_x*sum_y) / denom`
and `offset = (sum_y - slope*sum_x) / n`, with the sums the single-pass sums
over the points and `n` the floating count, and stores exactly these two
values (with the validity flag) as the new calibration. -/
theorem enter_calibration_data_formula
    (raw reference : List ℚ) (cal : Calibration)
    (hlen : raw.length = reference.length) (hn : 2 ≤ raw.length)
    (hden : epsDenom ≤
      |(raw.length : ℚ) * (raw.map fun x => x * x).sum - raw.sum * raw.sum|) :
    enter_calibration_data raw reference cal =
      (.ok
        (((raw.length : ℚ) * ((raw.zip reference).map fun p => p.1 * p.2).sum
            - raw.sum * reference.sum)
          / ((raw.length : ℚ) * (raw.map fun x => x * x).sum - raw.sum * raw.sum))
        ((reference.sum
            - (((raw.length : ℚ) * ((raw.zip reference).map fun p => p.1 * p.2).sum
                  - raw.sum * reference.sum)
                / ((raw.length : ℚ) * (raw.map fun x => x * x).sum - raw.sum * raw.sum))
              * raw.sum)
          / (raw.length : ℚ)),
       ⟨((raw.length : ℚ) * ((raw.zip reference).map fun p => p.1 * p.2).sum
            - raw.sum * reference.sum)
          / ((raw.length : ℚ) * (raw.map fun x => x * x).sum - raw.sum * raw.sum),
        (reference.sum
            - (((raw.length : ℚ) * ((raw.zip reference).map fun p => p.1 * p.2).sum
                  - raw.sum * reference.sum)
                / ((raw.length : ℚ) * (raw.map fun x => x * x).sum - raw.sum * raw.sum))
              * raw.sum)
          / (raw.length : ℚ),
        true⟩) := by
  have hnd : ¬ (|(raw.length : ℚ) * (raw.map fun x => x * x).sum - raw.sum * raw.sum|
      < epsDenom) := not_lt.mpr hden
  exact enter_calibration_data_ok raw reference cal _ _
    (by rw [linear_regression_sums raw reference hlen, if_neg hnd])

/-- C1 witness: the regression on points (raw, reference) = (0,0), (10,20)
stores slope 2 and offset 0. -/
theorem enter_calibration_data_formula_witness :
    enter_calibration_data [0, 10] [0, 20] init_calibration =
      (.ok 2 0, ⟨2, 0, true⟩) := by
  have h := enter_calibration_data_formula [0, 10] [0, 20] init_calibration
    (by decide) (by decide) (by norm_num [epsDenom])
  norm_num at h
  exact h

/-- C2: for `n ≥ 2` equal-length data lists whose denominator satisfies
`|denom| < 1e-10`, the regression fails as degenerate and the calibration
store is left exactly as it was; in particular, when all raw readings are
identical the denominator is below the threshold, so the regression fails and
the store is unchanged. -/
theorem enter_calibration_data_degenerate
    (raw reference : List ℚ) (cal : Calibration)
    (hlen : raw.length = reference.length) (hn : 2 ≤ raw.length) :
    ((|(raw.length : ℚ) * (raw.map fun x => x * x).sum - raw.sum * raw.sum|
        < epsDenom) →
      enter_calibration_data raw reference cal = (.degenerate, cal)) ∧
    (∀ c : ℚ, (∀ x ∈ raw, x = c) →
      |(raw.length : ℚ) * (raw.map fun x => x * x).sum - raw.sum * raw.sum|
          < epsDenom ∧
        enter_calibration_data raw reference cal = (.degenerate, cal)) := by
  have hmain : ∀ hden : |(raw.length : ℚ) * (raw.map fun x => x * x).sum
      - raw.sum * raw.sum| < epsDenom,
      enter_calibration_data raw reference cal = (.degenerate, cal) := by
    intro hden
    exact enter_calibration_data_deg raw reference cal
      (by rw [linear_regression_sums raw reference hlen, if_pos hden])
  refine ⟨hmain, ?_⟩
  intro c hc
  have hsum : raw.sum = (raw.length : ℚ) * c := sum_of_const raw c hc
  have hsq : (raw.map fun x => x * x).sum = (raw.length : ℚ) * (c * c) := by
    have h2 : ∀ y ∈ raw.map fun x => x * x, y = c * c := by
      intro y hy
      obtain ⟨x, hx, rfl⟩ := List.mem_map.mp hy
      rw [hc x hx]
    have := sum_of_const _ (c * c) h2
    simpa using this
  have hzero : (raw.length : ℚ) * (raw.map fun x => x * x).sum - raw.sum * raw.sum
      = 0 := by
    rw [hsum, hsq]; ring
  have hlt : |(raw.length : ℚ) * (raw.map fun x => x * x).sum - raw.sum * raw.sum|
      < epsDenom := by
    rw [hzero]
    norm_num [epsDenom]
  exact ⟨hlt, hmain hlt⟩

/-- C2 witness: two points with identical raw reading 5 are degenerate and
leave a pre-existing calibration untouched. -/
theorem enter_calibration_data_degenerate_witness :
    (|((List.length [(5 : ℚ), 5] : ℚ)) * ([(5 : ℚ), 5].map fun x => x * x).sum
        - [(5 : ℚ), 5].sum * [(5 : ℚ), 5].sum| < epsDenom ∧
      enter_calibration_data [5, 5] [1, 2] ⟨3, 4, true⟩ =
        (.degenerate, ⟨3, 4, true⟩)) := by
  exact (enter_calibration_data_degenerate [5, 5] [1, 2] ⟨3, 4, true⟩
    (by decide) (by decide)).2 5 (by decide)

/-- C3: loading fails with the file-open error when the file cannot be opened,
with the slope parse error when the first token is absent or unparseable, and
with the offset parse error when the second token is absent or unparseable —
in every failure case the calibration store is left unchanged; when both
tokens parse, the store is replaced wholesale with (slope, offset) and marked
valid, and any content after the second token is ignored. -/
theorem load_calibration_from_file_cases (cal : Calibration) :
    load_calibration_from_file none cal = (.fileOpenError, cal) ∧
    load_calibration_from_file (some []) cal = (.parseErrorSlope, cal) ∧
    (∀ ts : FileTokens,
      load_calibration_from_file (some (none :: ts)) cal = (.parseErrorSlope, cal)) ∧
    (∀ s : ℚ,
      load_calibration_from_file (some [some s]) cal = (.parseErrorOffset, cal)) ∧
    (∀ (s : ℚ) (ts : FileTokens),
      load_calibration_from_file (some (some s :: none :: ts)) cal
        = (.parseErrorOffset, cal)) ∧
    (∀ (s o : ℚ) (ts : FileTokens),
      load_calibration_from_file (some (some s :: some o :: ts)) cal
        = (.ok, ⟨s, o, true⟩)) := by
  refine ⟨rfl, rfl, fun ts => rfl, fun s => rfl, fun s ts => rfl, fun s o ts => rfl⟩

/-- The error `fix10` makes when rendering with 10 digits after the decimal
point is at most `10⁻¹⁰`. -/
theorem fix10_close (q : ℚ) : |fix10 q - q| ≤ 1 / 10 ^ 10 := by
  have h : |(round (q * 10 ^ 10) : ℚ) - q * 10 ^ 10| ≤ 1 / 2 := by
    rw [abs_sub_comm]
    exact abs_sub_round _
  have h10 : (0 : ℚ) < 10 ^ 10 := by norm_num
  have e : fix10 q - q = ((round (q * 10 ^ 10) : ℚ) - q * 10 ^ 10) / 10 ^ 10 := by
    rw [fix10]; ring
  rw [e, abs_div, abs_of_pos h10]
  calc |(round (q * 10 ^ 10) : ℚ) - q * 10 ^ 10| / 10 ^ 10
      ≤ (1 / 2) / 10 ^ 10 := by
        exact (div_le_div_iff_of_pos_right h10).mpr h
    _ ≤ 1 / 10 ^ 10 := by norm_num

/-- C4: saving a valid calibration `(s, o)` writes the two rendered
coefficients, and loading that file back from any prior store state yields a
valid calibration whose slope and offset equal the originals within the save
format's precision of 10 digits after the decimal point. -/
theorem save_load_roundtrip (s o : ℚ) (cal₂ : Calibration) :
    save_calibration_to_file ⟨s, o, true⟩ true =
      (.saved, some [some (fix10 s), some (fix10 o)], ⟨s, o, true⟩) ∧
    load_calibration_from_file (some [some (fix10 s), some (fix10 o)]) cal₂ =
      (.ok, ⟨fix10 s, fix10 o, true⟩) ∧
    |fix10 s - s| ≤ 1 / 10 ^ 10 ∧ |fix10 o - o| ≤ 1 / 10 ^ 10 :=
  ⟨rfl, rfl, fix10_close s, fix10_close o⟩

/-- Every pair the conversion loop reports applies the affine model to the
reading it consumed. -/
theorem convert_loop_affine (cal : Calibration) :
    ∀ inputs : List (ℚ × Char), ∀ p ∈ convert_loop cal inputs,
      p.2 = cal.slope * p.1 + cal.offset := by
  intro inputs
  induction inputs with
  | nil => intro p hp; simp [convert_loop] at hp
  | cons i rest ih =>
    obtain ⟨r, c⟩ := i
    intro p hp
    by_cases hc : c = 'y' ∨ c = 'Y'
    · rw [convert_loop, if_pos hc] at hp
      rcases List.mem_cons.mp hp with h | h
      · rw [h]
      · exact ih p h
    · rw [convert_loop, if_neg hc] at hp
      rcases List.mem_cons.mp hp with h | h
      · rw [h]
      · simp at h

/-- C5: with a valid calibration, the conversion session reports, for every
reading it consumed, exactly `real = slope * raw + offset` — a pure affine
function of the reading. -/
theorem convert_raw_reading_affine (cal : Calibration)
    (inputs : List (ℚ × Char)) (hv : cal.is_valid = true) :
    ∃ outs : List (ℚ × ℚ),
      convert_raw_reading cal inputs = (some outs, cal) ∧
      ∀ p ∈ outs, p.2 = cal.slope * p.1 + cal.offset := by
  refine ⟨convert_loop cal inputs, ?_, convert_loop_affine cal inputs⟩
  rw [convert_raw_reading, hv]
  simp

/-- C5 witness: with calibration slope 2, offset 1, a session with the single
reading 3 reports exactly (3, 7). -/
theorem convert_raw_reading_affine_witness :
    ∃ outs : List (ℚ × ℚ),
      convert_raw_reading ⟨2, 1, true⟩ [(3, 'n')] = (some outs, ⟨2, 1, true⟩) ∧
      ∀ p ∈ outs, p.2 = (⟨2, 1, true⟩ : Calibration).slope * p.1
          + (⟨2, 1, true⟩ : Calibration).offset :=
  convert_raw_reading_affine ⟨2, 1, true⟩ [(3, 'n')] rfl

/-- C6: whenever the store's validity flag is false, conversion reports the
not-calibrated error and saving reports the no-calibration error; neither
writes a file, both leave the store unchanged, and neither menu dispatch
terminates the session. -/
theorem not_calibrated_errors (cal : Calibration) (inputs : List (ℚ × Char))
    (canOpen : Bool) (env : Env) (hv : cal.is_valid = false) :
    convert_raw_reading cal inputs = (none, cal) ∧
    save_calibration_to_file cal canOpen = (.noCalibration, none, cal) ∧
    (menu_step cal (.choice 3) env).1 = none ∧
    (menu_step cal (.choice 4) env).1 = none := by
  have hc : convert_raw_reading cal inputs = (none, cal) := by
    rw [convert_raw_reading, hv]
    simp
  have hs : save_calibration_to_file cal canOpen = (.noCalibration, none, cal) := by
    rw [save_calibration_to_file, hv]
    simp
  refine ⟨hc, hs, ?_, ?_⟩ <;> simp [menu_step]

/-- C6 witness: at process start (no calibration ever set), conversion and
save both fail without touching the store and the session continues. -/
theorem not_calibrated_errors_witness :
    convert_raw_reading init_calibration [(3, 'n')] = (none, init_calibration) ∧
    save_calibration_to_file init_calibration true =
      (.noCalibration, none, init_calibration) ∧
    (menu_step init_calibration (.choice 3) ⟨[], [], none, [(3, 'n')], true⟩).1
      = none ∧
    (menu_step init_calibration (.choice 4) ⟨[], [], none, [(3, 'n')], true⟩).1
      = none :=
  not_calibrated_errors init_calibration [(3, 'n')] true
    ⟨[], [], none, [(3, 'n')], true⟩ rfl

/-- The conversion session leaves the calibration store as it was, on both
the uncalibrated and the calibrated path. -/
theorem convert_raw_reading_snd (cal : Calibration)
    (inputs : List (ℚ × Char)) :
    (convert_raw_reading cal inputs).2 = cal := by
  rw [convert_raw_reading]
  split <;> rfl

/-- C10: the conversion session never modifies the calibration store — after
any session (any readings, any continuation answers, calibrated or not) the
slope, offset and validity flag equal their values before it. -/
theorem convert_raw_reading_frame (cal : Calibration)
    (inputs : List (ℚ × Char)) :
    (convert_raw_reading cal inputs).2 = cal :=
  convert_raw_reading_snd cal inputs

/-- The store after `enter_calibration_data` is either untouched or replaced
wholesale, and its validity flag is the old one or-ed with success of the
regression. -/
theorem enter_calibration_data_snd (raw reference : List ℚ) (cal : Calibration) :
    ((enter_calibration_data raw reference cal).2 = cal ∨
      ∃ s o : ℚ, (enter_calibration_data raw reference cal).2 = ⟨s, o, true⟩) ∧
    ((enter_calibration_data raw reference cal).2).is_valid =
      (cal.is_valid || reg_ok raw reference) := by
  cases h : linear_regression raw reference with
  | degenerate =>
    have hr : reg_ok raw reference = false := by
      unfold reg_ok
      rw [h]
    rw [enter_calibration_data_deg raw reference cal h, hr]
    exact ⟨Or.inl rfl, by simp⟩
  | ok s o =>
    have hr : reg_ok raw reference = true := by
      unfold reg_ok
      rw [h]
    rw [enter_calibration_data_ok raw reference cal s o h, hr]
    exact ⟨Or.inr ⟨s, o, rfl⟩, by simp⟩

/-- The store after `load_calibration_from_file` is either untouched or
replaced wholesale, and its validity flag is the old one or-ed with success of
the load. -/
theorem load_calibration_from_file_snd (file : Option FileTokens)
    (cal : Calibration) :
    ((load_calibration_from_file file cal).2 = cal ∨
      ∃ s o : ℚ, (load_calibration_from_file file cal).2 = ⟨s, o, true⟩) ∧
    ((load_calibration_from_file file cal).2).is_valid =
      (cal.is_valid || load_ok file) := by
  rcases file with _ | ts
  · refine ⟨Or.inl rfl, ?_⟩
    simp [load_calibration_from_file, load_ok]
  · rcases ts with _ | ⟨t, ts⟩
    · refine ⟨Or.inl rfl, ?_⟩
      simp [load_calibration_from_file, load_ok, readToken]
    · rcases t with _ | q
      · refine ⟨Or.inl rfl, ?_⟩
        simp [load_calibration_from_file, load_ok, readToken]
      · rcases ts with _ | ⟨t2, ts⟩
        · refine ⟨Or.inl rfl, ?_⟩
          simp [load_calibration_from_file, load_ok, readToken]
        · rcases t2 with _ | q2
          · refine ⟨Or.inl rfl, ?_⟩
            simp [load_calibration_from_file, load_ok, readToken]
          · refine ⟨Or.inr ⟨q, q2, rfl⟩, ?_⟩
            simp [load_calibration_from_file, load_ok, readToken]

/-- The save operation never modifies the calibration store. -/
theorem save_calibration_to_file_snd (cal : Calibration) (canOpen : Bool) :
    (save_calibration_to_file cal canOpen).2.2 = cal := by
  rw [save_calibration_to_file]
  split
  · rfl
  · split <;> rfl

/-- A menu step terminates the session exactly on the exit command, and then
with exit code 0 and an untouched store. -/
theorem menu_step_exit_iff (cal : Calibration) (inp : MenuInput) (env : Env) :
    (isExitStep inp = true → menu_step cal inp env = (some 0, cal)) ∧
    (isExitStep inp = false → (menu_step cal inp env).1 = none) := by
  cases inp with
  | malformed => simp [menu_step, isExitStep]
  | choice n =>
    constructor
    · intro h
      have hn : n = 5 := by simpa [isExitStep] using h
      subst hn
      simp [menu_step]
    · intro h
      have hn : ¬ n = 5 := by simpa [isExitStep] using h
      rw [menu_step]
      split_ifs <;> simp_all

/-- The validity flag after one non-exit menu step is the old flag or-ed with
whether the step performed a successful regression or load. -/
theorem menu_step_valid (cal : Calibration) (inp : MenuInput) (env : Env)
    (h : isExitStep inp = false) :
    ((menu_step cal inp env).2).is_valid = (cal.is_valid || step_sets inp env) := by
  cases inp with
  | malformed => simp [menu_step, step_sets]
  | choice n =>
    have hn : ¬ n = 5 := by simpa [isExitStep] using h
    rw [menu_step, step_sets]
    split_ifs with h1 h2 h3 h4
    · exact (enter_calibration_data_snd env.raw env.reference cal).2
    · exact (load_calibration_from_file_snd env.file cal).2
    · rw [convert_raw_reading_snd]
      simp
    · rw [save_calibration_to_file_snd]
      simp
    · simp

/-- Every menu step either leaves the store untouched or replaces it wholesale
with a fully valid record. -/
theorem menu_step_wholesale (cal : Calibration) (inp : MenuInput) (env : Env) :
    (menu_step cal inp env).2 = cal ∨
      ∃ s o : ℚ, (menu_step cal inp env).2 = ⟨s, o, true⟩ := by
  cases inp with
  | malformed => exact Or.inl rfl
  | choice n =>
    rw [menu_step]
    split_ifs with h1 h2 h3 h4 h5
    · exact (enter_calibration_data_snd env.raw env.reference cal).1
    · exact (load_calibration_from_file_snd env.file cal).1
    · exact Or.inl (convert_raw_reading_snd cal env.readings)
    · exact Or.inl (save_calibration_to_file_snd cal env.saveOk)
    · exact Or.inl rfl
    · exact Or.inl rfl

/-- The validity flag after a whole session run is the initial flag or-ed with
whether any executed step performed a successful regression or load. -/
theorem run_session_valid (inputs : List (MenuInput × Env)) :
    ∀ cal : Calibration,
      (run_session cal inputs).is_valid = (cal.is_valid || session_sets inputs) := by
  induction inputs with
  | nil => intro cal; simp [run_session, session_sets]
  | cons p rest ih =>
    intro cal
    obtain ⟨inp, env⟩ := p
    by_cases hx : isExitStep inp = true
    · have hms : menu_step cal inp env = (some 0, cal) :=
        (menu_step_exit_iff cal inp env).1 hx
      rw [run_session, hms, session_sets]
      simp [hx]
    · have hx' : isExitStep inp = false := by simpa using hx
      have h1 : (menu_step cal inp env).1 = none :=
        (menu_step_exit_iff cal inp env).2 hx'
      rcases hms : menu_step cal inp env with ⟨o, cal₁⟩
      rw [hms] at h1
      subst h1
      rw [run_session, hms, ih cal₁, session_sets]
      have h2 : cal₁.is_valid = (cal.is_valid || step_sets inp env) := by
        have := menu_step_valid cal inp env hx'
        rw [hms] at this
        exact this
      rw [h2, hx']
      simp [Bool.or_assoc]

/-- C7: the calibration record starts invalid at process start; every menu
step either leaves it untouched or overwrites slope, offset and validity
together (never partially); and over any session run the validity flag is
true exactly when some executed step performed a successful regression or a
successful file load (or the run started from an already-valid store). -/
theorem calibration_validity_invariant :
    init_calibration.is_valid = false ∧
    (∀ (cal : Calibration) (inp : MenuInput) (env : Env),
      (menu_step cal inp env).2 = cal ∨
        ∃ s o : ℚ, (menu_step cal inp env).2 = ⟨s, o, true⟩) ∧
    (∀ (cal : Calibration) (inputs : List (MenuInput × Env)),
      (run_session cal inputs).is_valid = true ↔
        (cal.is_valid = true ∨ session_sets inputs = true)) := by
  refine ⟨rfl, menu_step_wholesale, ?_⟩
  intro cal inputs
  rw [run_session_valid inputs cal]
  simp

/-- C8: a malformed (non-integer) menu input or an out-of-range integer
choice (not in 1..5) reports an error and returns to the menu with no side
effects — the store is unchanged and the session does not terminate; the only
terminal transition is choice 5, which exits with code 0. -/
theorem menu_error_recovery (cal : Calibration) (env : Env) (n : ℤ)
    (hn : n < 1 ∨ 5 < n) :
    menu_step cal .malformed env = (none, cal) ∧
    menu_step cal (.choice n) env = (none, cal) ∧
    menu_step cal (.choice 5) env = (some 0, cal) ∧
    (∀ inp : MenuInput, (menu_step cal inp env).1 ≠ none →
      inp = .choice 5 ∧ menu_step cal inp env = (some 0, cal)) := by
  refine ⟨rfl, ?_, by simp [menu_step], ?_⟩
  · have g1 : ¬ n = 1 := by omega
    have g2 : ¬ n = 2 := by omega
    have g3 : ¬ n = 3 := by omega
    have g4 : ¬ n = 4 := by omega
    have g5 : ¬ n = 5 := by omega
    rw [menu_step, if_neg g1, if_neg g2, if_neg g3, if_neg g4, if_neg g5]
  · intro inp hne
    cases inp with
    | malformed => exact absurd rfl hne
    | choice m =>
      rw [menu_step] at hne ⊢
      split_ifs at hne ⊢ with e1 e2 e3 e4 e5
      · exact absurd rfl hne
      · exact absurd rfl hne
      · exact absurd rfl hne
      · exact absurd rfl hne
      · subst e5
        exact ⟨rfl, rfl⟩
      · exact absurd rfl hne

/-- C8 witness: on a calibrated store, a malformed input and the out-of-range
choice 9 leave everything unchanged without terminating, while choice 5 exits
with code 0. -/
theorem menu_error_recovery_witness :
    menu_step ⟨2, 0, true⟩ .malformed ⟨[], [], none, [], true⟩
      = (none, ⟨2, 0, true⟩) ∧
    menu_step ⟨2, 0, true⟩ (.choice 9) ⟨[], [], none, [], true⟩
      = (none, ⟨2, 0, true⟩) ∧
    menu_step ⟨2, 0, true⟩ (.choice 5) ⟨[], [], none, [], true⟩
      = (some 0, ⟨2, 0, true⟩) ∧
    (∀ inp : MenuInput,
      (menu_step ⟨2, 0, true⟩ inp ⟨[], [], none, [], true⟩).1 ≠ none →
        inp = .choice 5 ∧
        menu_step ⟨2, 0, true⟩ inp ⟨[], [], none, [], true⟩
          = (some 0, ⟨2, 0, true⟩)) :=
  menu_error_recovery ⟨2, 0, true⟩ ⟨[], [], none, [], true⟩ 9
    (Or.inr (by norm_num))

/-- C9: validity is monotone — once the store is valid, no menu step and no
whole session run ever resets the flag to false, so the not-calibrated and
no-calibration errors can never occur again: conversion no longer fails and
save no longer reports a missing calibration. -/
theorem validity_monotone (cal : Calibration) (inp : MenuInput) (env : Env)
    (inputs : List (MenuInput × Env)) (readings : List (ℚ × Char))
    (canOpen : Bool) (hv : cal.is_valid = true) :
    ((menu_step cal inp env).2).is_valid = true ∧
    (run_session cal inputs).is_valid = true ∧
    (convert_raw_reading cal readings).1 ≠ none ∧
    (save_calibration_to_file cal canOpen).1 ≠ .noCalibration := by
  refine ⟨?_, ?_, ?_, ?_⟩
  · by_cases hx : isExitStep inp = true
    · rw [(menu_step_exit_iff cal inp env).1 hx]
      exact hv
    · rw [menu_step_valid cal inp env (by simpa using hx), hv]
      simp
  · rw [run_session_valid inputs cal, hv]
    simp
  · rw [convert_raw_reading, hv]
    simp
  · rw [save_calibration_to_file, hv]
    split
    · simp_all
    · split <;> simp

/-- C9 witness: a calibrated store stays valid across a menu step and a run,
and neither conversion nor save reports a missing calibration. -/
theorem validity_monotone_witness :
    ((menu_step ⟨2, 1, true⟩ .malformed ⟨[], [], none, [], true⟩).2).is_valid
        = true ∧
    (run_session ⟨2, 1, true⟩ []).is_valid = true ∧
    (convert_raw_reading ⟨2, 1, true⟩ []).1 ≠ none ∧
    (save_calibration_to_file ⟨2, 1, true⟩ false).1 ≠ .noCalibration :=
  validity_monotone ⟨2, 1, true⟩ .malformed ⟨[], [], none, [], true⟩ [] [] false
    rfl

end SensorCal
